import Mathlib

/-!
Shallow embedding of comfy/src/animated_sprite.rs.

Modelling conventions:
- Rust f32 values (timers, intervals, deltas) are modelled as exact
  rationals (ℚ); floating-point rounding is abstracted away.
- Rust i32 values are modelled as ℤ (wraparound is irrelevant at the
  magnitudes the claims quantify over).
- The Rust cast `as i32` from f32 truncates toward zero; `ratTruncToInt`
  models this exactly on ℚ.
- Rust integer `/` and `%` on i32 truncate toward zero; they are modelled
  with Int.tdiv / Int.tmod.
- Rust code that panics (expect / assert) is modelled as returning Option,
  with none standing for the panic.
- The HashMap of animations is modelled as an association list where
  insertion replaces any existing binding for the key.
- The external texture size lookup (Assets::image_size) is passed to
  current_rect as an explicit function argument.
-/

/-- Truncation toward zero of a rational, the semantics of the Rust cast
from f32 to i32 (ignoring saturation, which the claims never reach). -/
def ratTruncToInt (x : ℚ) : ℤ := if 0 ≤ x then ⌊x⌋ else ⌈x⌉

/-- Spritesheet grid description (rows and columns are u32 in the source,
modelled as ℕ). -/
structure Spritesheet where
  rows : ℕ
  columns : ℕ
  deriving Repr, DecidableEq

/-- AnimationSource from the source: Files, Atlas or Spritesheet.
The Rust field called prefix is named prefixStr here because prefix is a
reserved word in Lean. -/
inductive AnimationSource where
  | Files (prefixStr : String) (frames : ℤ)
  | Atlas (name : String) (offset : ℤ × ℤ) (step : ℤ × ℤ) (size : ℤ × ℤ)
      (frames : ℤ)
  | Spritesheet (name : String) (spritesheet : Spritesheet)
  deriving Repr, DecidableEq

/-- AnimationSource::frames from the source. -/
def AnimationSource.frames : AnimationSource → ℤ
  | .Files _ frames => frames
  | .Atlas _ _ _ _ frames => frames
  | .Spritesheet _ spritesheet =>
      ((spritesheet.rows * spritesheet.columns : ℕ) : ℤ)

/-- AnimationState from the source. -/
structure AnimationState where
  animation_name : String
  source : AnimationSource
  interval : ℚ
  looping : Bool
  timer : ℚ
  current_frame : ℤ
  deriving Repr, DecidableEq

/-- Animation from the source. -/
structure Animation where
  name : String
  source : AnimationSource
  looping : Bool
  frame_time : ℚ
  deriving Repr, DecidableEq

/-- Animation::to_state from the source. -/
def Animation.to_state (a : Animation) : AnimationState :=
  { animation_name := a.name
    source := a.source
    interval := a.frame_time
    looping := a.looping
    timer := 0
    current_frame := 0 }

/-- AnimationState::new from the source: interval is the total time divided
by the frame count. -/
def AnimationState.new (animation_name : String) (source : AnimationSource)
    (time : ℚ) (looping : Bool) : AnimationState :=
  { animation_name := animation_name
    looping := looping
    interval := time / (source.frames : ℚ)
    timer := 0
    current_frame := 0
    source := source }

/-- AnimationState::progress from the source. -/
def AnimationState.progress (s : AnimationState) : ℚ :=
  s.timer / (s.interval * (s.source.frames : ℚ))

/-- AnimationState::update_and_finished from the source: the timer is
incremented first, then the index is the truncated quotient of the new
timer by the interval; the pair is the mutated state together with the
returned bool. -/
def AnimationState.update_and_finished (s : AnimationState) (delta : ℚ) :
    AnimationState × Bool :=
  ({ s with
      timer := s.timer + delta
      current_frame :=
        if s.looping then
          Int.tmod (ratTruncToInt ((s.timer + delta) / s.interval))
            s.source.frames
        else if s.source.frames ≤
            ratTruncToInt ((s.timer + delta) / s.interval) then
          s.source.frames - 1
        else
          ratTruncToInt ((s.timer + delta) / s.interval) },
    decide (s.source.frames ≤ ratTruncToInt ((s.timer + delta) / s.interval))
      && !s.looping)

/-- ImageSizeResult from the engine: the texture size provider. -/
inductive ImageSizeResult where
  | Loaded (size : ℕ × ℕ)
  | LoadingInProgress
  | NotFound
  deriving Repr, DecidableEq

/-- IRect from the engine: an offset and a size, both integer 2D vectors. -/
structure IRect where
  offset : ℤ × ℤ
  size : ℤ × ℤ
  deriving Repr, DecidableEq

/-- AnimationState::current_rect from the source. The external
Assets::image_size lookup is passed in as the image_size argument. -/
def AnimationState.current_rect (s : AnimationState)
    (image_size : String → ImageSizeResult) : String × Option IRect :=
  match s.source with
  | .Files prefixStr _ => (prefixStr ++ toString s.current_frame, none)
  | .Atlas name offset step size _ =>
      (name,
        some ⟨(offset.1 + step.1 * s.current_frame,
               offset.2 + step.2 * s.current_frame), size⟩)
  | .Spritesheet name spritesheet =>
      let imageSize : ℤ × ℤ :=
        match image_size name with
        | .Loaded sz => ((sz.1 : ℤ), (sz.2 : ℤ))
        | .LoadingInProgress => (64, 64)
        | .NotFound => (64, 64)
      let size : ℤ × ℤ :=
        (Int.tdiv imageSize.1 (spritesheet.columns : ℤ),
         Int.tdiv imageSize.2 (spritesheet.rows : ℤ))
      let row := Int.tdiv s.current_frame (spritesheet.columns : ℤ)
      let col := Int.tmod s.current_frame (spritesheet.columns : ℤ)
      (name, some ⟨(col * size.1, row * size.2), size⟩)

/-- The animation catalog: HashMap String Animation modelled as an
association list where insertion replaces existing bindings. -/
abbrev Catalog := List (String × Animation)

/-- HashMap::get. -/
def hmGet (m : Catalog) (k : String) : Option Animation :=
  (m.find? (fun p => p.1 == k)).map Prod.snd

/-- HashMap::insert (replacing any existing binding for the key). -/
def hmInsert (m : Catalog) (k : String) (v : Animation) : Catalog :=
  (k, v) :: m.filter (fun p => p.1 != k)

/-- AnimatedSprite from the source, restricted to the fields the claims
are about (the remaining fields are rendering plumbing that none of the
modelled operations read or write). -/
structure AnimatedSprite where
  animations : Catalog
  state : AnimationState
  deriving Repr, DecidableEq

/-- AnimatedSprite::play from the source: look the name up, and replace
the state only when the found animation's name differs from the active
state's name. -/
def AnimatedSprite.play (sp : AnimatedSprite) (animation_name : String) :
    AnimatedSprite :=
  match hmGet sp.animations animation_name with
  | some animation =>
      if animation.name ≠ sp.state.animation_name then
        { sp with state := animation.to_state }
      else sp
  | none => sp

/-- AnimatedSprite::set_animations from the source: expects a nonempty
list (none models the panic), resets the state from the first definition,
clears the catalog and inserts every definition keyed by its name. -/
def AnimatedSprite.set_animations (sp : AnimatedSprite)
    (animations : List Animation) : Option AnimatedSprite :=
  match animations with
  | [] => none
  | first :: _ =>
      some { sp with
        state := first.to_state
        animations :=
          animations.foldl (fun m a => hmInsert m a.name a) [] }

/-- AnimatedSpriteBuilder from the source, restricted to the fields the
claims are about. -/
structure AnimatedSpriteBuilder where
  animations : Catalog
  state : Option AnimationState
  deriving Repr, DecidableEq

/-- AnimatedSpriteBuilder::new from the source. -/
def AnimatedSpriteBuilder.new : AnimatedSpriteBuilder :=
  { animations := [], state := none }

/-- AnimatedSpriteBuilder::with_animations from the source: asserts the
builder is fresh (state not yet set), expects a nonempty list; none models
either panic. -/
def AnimatedSpriteBuilder.with_animations (b : AnimatedSpriteBuilder)
    (animations : List Animation) : Option AnimatedSpriteBuilder :=
  if b.state.isSome then none
  else
    match animations with
    | [] => none
    | first :: _ =>
        some { b with
          state := some first.to_state
          animations :=
            animations.foldl (fun m a => hmInsert m a.name a) b.animations }

/-- AnimatedSpriteBuilder::add_anim from the source. -/
def AnimatedSpriteBuilder.add_anim (b : AnimatedSpriteBuilder)
    (animation : Animation) : AnimatedSpriteBuilder :=
  let b1 :=
    if b.state = none then { b with state := some animation.to_state } else b
  { b1 with animations := hmInsert b1.animations animation.name animation }

/-- AnimatedSpriteBuilder::add_animation from the source. -/
def AnimatedSpriteBuilder.add_animation (b : AnimatedSpriteBuilder)
    (name : String) (frame_time : ℚ) (looping : Bool)
    (source : AnimationSource) : AnimatedSpriteBuilder :=
  let animation : Animation :=
    { name := name, frame_time := frame_time, looping := looping
      source := source }
  let b1 :=
    if b.state = none then { b with state := some animation.to_state } else b
  { b1 with animations := hmInsert b1.animations name animation }

/-- AnimatedSpriteBuilder::build from the source: expects the state to be
set (none models the panic). -/
def AnimatedSpriteBuilder.build (b : AnimatedSpriteBuilder) :
    Option AnimatedSprite :=
  b.state.map (fun st => { animations := b.animations, state := st })

/-- States reachable from a given AnimationState by a finite sequence of
update_and_finished calls with non-negative deltas. -/
inductive ReachesNN : AnimationState → AnimationState → Prop
  | refl (s : AnimationState) : ReachesNN s s
  | step (s t : AnimationState) (d : ℚ) (hd : 0 ≤ d) (h : ReachesNN s t) :
      ReachesNN s (t.update_and_finished d).1

/-! Helper lemmas about update_and_finished and reachability. -/

lemma ratTruncToInt_of_nonneg (x : ℚ) (h : 0 ≤ x) : ratTruncToInt x = ⌊x⌋ :=
  if_pos h

lemma update_timer (s : AnimationState) (d : ℚ) :
    ((s.update_and_finished d).1).timer = s.timer + d := rfl

lemma update_source (s : AnimationState) (d : ℚ) :
    ((s.update_and_finished d).1).source = s.source := rfl

lemma update_interval (s : AnimationState) (d : ℚ) :
    ((s.update_and_finished d).1).interval = s.interval := rfl

lemma update_looping (s : AnimationState) (d : ℚ) :
    ((s.update_and_finished d).1).looping = s.looping := rfl

lemma ReachesNN.preserves {s t : AnimationState} (h : ReachesNN s t) :
    t.source = s.source ∧ t.interval = s.interval ∧ t.looping = s.looping ∧
      s.timer ≤ t.timer := by
  induction h with
  | refl => exact ⟨rfl, rfl, rfl, le_refl _⟩
  | step t d hd h ih =>
      refine ⟨(update_source t d).trans ih.1,
        (update_interval t d).trans ih.2.1,
        (update_looping t d).trans ih.2.2.1, ?_⟩
      rw [update_timer]
      exact le_trans ih.2.2.2 (le_add_of_nonneg_right hd)

lemma tmod_eq_emod_of_nonneg {a b : ℤ} (ha : 0 ≤ a) (hb : 0 ≤ b) :
    Int.tmod a b = a % b := by
  obtain ⟨m, rfl⟩ := Int.eq_ofNat_of_zero_le ha
  obtain ⟨n, rfl⟩ := Int.eq_ofNat_of_zero_le hb
  rfl

lemma tdiv_eq_ediv_of_nonneg {a b : ℤ} (ha : 0 ≤ a) (hb : 0 ≤ b) :
    Int.tdiv a b = a / b := by
  obtain ⟨m, rfl⟩ := Int.eq_ofNat_of_zero_le ha
  obtain ⟨n, rfl⟩ := Int.eq_ofNat_of_zero_le hb
  rfl

/-- One advance step of a non-looping state with a non-negative timer:
the returned flag is true iff the new timer has reached N * I, and the
new frame is clamped to N - 1. -/
lemma oneShotStep (t : AnimationState) (N : ℤ) (I : ℚ)
    (hloop : t.looping = false) (hN : 1 ≤ N) (hfr : t.source.frames = N)
    (hI : 0 < I) (hint : t.interval = I) (ht : 0 ≤ t.timer)
    (d : ℚ) (hd : 0 ≤ d) :
    (((t.update_and_finished d).2 = true) ↔
        N ≤ ⌊(t.timer + d) / I⌋) ∧
    (((t.update_and_finished d).2 = true) ↔
        (N : ℚ) * I ≤ t.timer + d) ∧
    (0 ≤ (t.update_and_finished d).1.current_frame) ∧
    ((t.update_and_finished d).1.current_frame ≤ N - 1) ∧
    (((t.update_and_finished d).2 = true) →
        (t.update_and_finished d).1.current_frame = N - 1) := by
  have hT : 0 ≤ t.timer + d := add_nonneg ht hd
  have hTI : 0 ≤ (t.timer + d) / I := div_nonneg hT hI.le
  have hidx : ratTruncToInt ((t.timer + d) / t.interval) =
      ⌊(t.timer + d) / I⌋ := by
    rw [hint, ratTruncToInt_of_nonneg _ hTI]
  have hfloor0 : (0 : ℤ) ≤ ⌊(t.timer + d) / I⌋ := Int.floor_nonneg.mpr hTI
  have hiff : (N ≤ ⌊(t.timer + d) / I⌋) ↔ (N : ℚ) * I ≤ t.timer + d := by
    rw [Int.le_floor, le_div_iff₀ hI]
  have hbool : (t.update_and_finished d).2 =
      decide (N ≤ ⌊(t.timer + d) / I⌋) := by
    simp only [AnimationState.update_and_finished, hloop, hfr, hidx,
      Bool.not_false, Bool.and_true]
  have hframe : (t.update_and_finished d).1.current_frame =
      if N ≤ ⌊(t.timer + d) / I⌋ then N - 1 else ⌊(t.timer + d) / I⌋ := by
    simp only [AnimationState.update_and_finished, hloop, hfr, hidx,
      if_false, Bool.false_eq_true]
  refine ⟨?_, ?_, ?_, ?_, ?_⟩
  · rw [hbool]; simp
  · rw [hbool]; simp [hiff]
  · rw [hframe]
    split
    · omega
    · exact hfloor0
  · rw [hframe]
    split
    · omega
    · omega
  · intro hfin
    rw [hbool] at hfin
    rw [hframe, if_pos (by simpa using hfin)]

/-- C1: for every non-looping PlaybackState with frame count N at least 1
and interval I positive, along every sequence of advance calls with
non-negative deltas, each call reports finished exactly when
floor(new timer / I) has reached N, equivalently when the timer has
reached N * I; the stored current_frame never exceeds N - 1, equals
N - 1 whenever the call reports finished, and every later call keeps
reporting finished with current_frame held at N - 1. -/
theorem C1_one_shot_clock (s0 : AnimationState) (N : ℤ) (I : ℚ)
    (hloop : s0.looping = false) (hN : 1 ≤ N) (hfr : s0.source.frames = N)
    (hI : 0 < I) (hint : s0.interval = I) (ht0 : 0 ≤ s0.timer) :
    ∀ t, ReachesNN s0 t → ∀ d, 0 ≤ d →
      ((((t.update_and_finished d).2 = true) ↔
          N ≤ ⌊(t.update_and_finished d).1.timer / I⌋) ∧
       (((t.update_and_finished d).2 = true) ↔
          (N : ℚ) * I ≤ (t.update_and_finished d).1.timer) ∧
       ((t.update_and_finished d).1.current_frame ≤ N - 1) ∧
       (((t.update_and_finished d).2 = true) →
          (t.update_and_finished d).1.current_frame = N - 1) ∧
       (((t.update_and_finished d).2 = true) →
          ∀ u, ReachesNN (t.update_and_finished d).1 u → ∀ e, 0 ≤ e →
            ((u.update_and_finished e).2 = true ∧
             (u.update_and_finished e).1.current_frame = N - 1))) := by
  intro t hreach d hd
  obtain ⟨hsrc, hin, hlo, htm⟩ := hreach.preserves
  have ht : 0 ≤ t.timer := le_trans ht0 htm
  have hstep := oneShotStep t N I (hlo.trans hloop) hN (hsrc ▸ hfr) hI
    (hin.trans hint) ht d hd
  refine ⟨?_, ?_, hstep.2.2.2.1, hstep.2.2.2.2, ?_⟩
  · rw [update_timer]; exact hstep.1
  · rw [update_timer]; exact hstep.2.1
  · intro hfin u hu e he
    have hNI : (N : ℚ) * I ≤ t.timer + d := hstep.2.1.mp hfin
    obtain ⟨husrc, huin, hulo, hutm⟩ := hu.preserves
    rw [update_timer] at hutm
    have hut : 0 ≤ u.timer := le_trans (add_nonneg ht hd) hutm
    have hustep := oneShotStep u N I
      ((hulo.trans (update_looping t d)).trans (hlo.trans hloop)) hN
      (by rw [husrc, update_source, hsrc, hfr]) hI
      ((huin.trans (update_interval t d)).trans (hin.trans hint)) hut e he
    have hfin2 : (u.update_and_finished e).2 = true :=
      hustep.2.1.mpr (le_trans hNI (le_trans hutm
        (le_add_of_nonneg_right he)))
    exact ⟨hfin2, hustep.2.2.2.2 hfin2⟩

/-- Witness for C1: a two-frame one-shot clip with interval 1 advanced by
3 seconds reports finished and sits on frame 1. -/
theorem C1_one_shot_clock_witness :
    (((⟨"a", .Files "f" 2, 1, false, 0, 0⟩ :
        AnimationState).update_and_finished 3).2 = true) ∧
    (((⟨"a", .Files "f" 2, 1, false, 0, 0⟩ :
        AnimationState).update_and_finished 3).1.current_frame = 1) := by
  have h := C1_one_shot_clock ⟨"a", .Files "f" 2, 1, false, 0, 0⟩ 2 1 rfl
    (by decide) rfl (by norm_num) rfl (le_refl 0) _ (ReachesNN.refl _) 3
    (by norm_num)
  have hfin : ((⟨"a", .Files "f" 2, 1, false, 0, 0⟩ :
      AnimationState).update_and_finished 3).2 = true := by
    refine h.2.1.mpr ?_
    rw [update_timer]
    norm_num
  exact ⟨hfin, (h.2.2.2.1 hfin).trans (by norm_num)⟩

/-- One advance step of a looping state with a non-negative timer: the new
frame is the floor of the new timer over the interval, modulo the frame
count, and the returned flag is false. -/
lemma loopStep (t : AnimationState) (N : ℤ) (I : ℚ)
    (hloop : t.looping = true) (hN : 1 ≤ N) (hfr : t.source.frames = N)
    (hI : 0 < I) (hint : t.interval = I) (ht : 0 ≤ t.timer)
    (d : ℚ) (hd : 0 ≤ d) :
    ((t.update_and_finished d).1.current_frame =
      ⌊(t.timer + d) / I⌋ % N) ∧
    ((t.update_and_finished d).2 = false) := by
  have hT : 0 ≤ t.timer + d := add_nonneg ht hd
  have hTI : 0 ≤ (t.timer + d) / I := div_nonneg hT hI.le
  have hidx : ratTruncToInt ((t.timer + d) / t.interval) =
      ⌊(t.timer + d) / I⌋ := by
    rw [hint, ratTruncToInt_of_nonneg _ hTI]
  have hfloor0 : (0 : ℤ) ≤ ⌊(t.timer + d) / I⌋ := Int.floor_nonneg.mpr hTI
  constructor
  · have hframe : (t.update_and_finished d).1.current_frame =
        Int.tmod ⌊(t.timer + d) / I⌋ N := by
      simp only [AnimationState.update_and_finished, hloop, hfr, hidx,
        if_true]
    rw [hframe]
    exact tmod_eq_emod_of_nonneg hfloor0 (by omega)
  · simp [AnimationState.update_and_finished, hloop]

/-- C2: for every looping PlaybackState with frame count N at least 1 and
interval I positive, along every sequence of advance calls with
non-negative deltas, each call stores current_frame =
floor(new timer / I) mod N and returns finished = false. -/
theorem C2_looping_clock (s0 : AnimationState) (N : ℤ) (I : ℚ)
    (hloop : s0.looping = true) (hN : 1 ≤ N) (hfr : s0.source.frames = N)
    (hI : 0 < I) (hint : s0.interval = I) (ht0 : 0 ≤ s0.timer) :
    ∀ t, ReachesNN s0 t → ∀ d, 0 ≤ d →
      ((t.update_and_finished d).1.current_frame =
        ⌊(t.update_and_finished d).1.timer / I⌋ % N) ∧
      ((t.update_and_finished d).2 = false) := by
  intro t hreach d hd
  obtain ⟨hsrc, hin, hlo, htm⟩ := hreach.preserves
  have ht : 0 ≤ t.timer := le_trans ht0 htm
  have hstep := loopStep t N I (hlo.trans hloop) hN (hsrc ▸ hfr) hI
    (hin.trans hint) ht d hd
  refine ⟨?_, hstep.2⟩
  rw [update_timer]
  exact hstep.1

/-- Witness for C2: a two-frame looping clip with interval 1 advanced by
3 seconds in one call lands on frame floor(3/1) mod 2 = 1 and does not
report finished. -/
theorem C2_looping_clock_witness :
    (((⟨"a", .Files "f" 2, 1, true, 0, 0⟩ :
        AnimationState).update_and_finished 3).1.current_frame = 1) ∧
    (((⟨"a", .Files "f" 2, 1, true, 0, 0⟩ :
        AnimationState).update_and_finished 3).2 = false) := by
  have h := C2_looping_clock ⟨"a", .Files "f" 2, 1, true, 0, 0⟩ 2 1 rfl
    (by decide) rfl (by norm_num) rfl (le_refl 0) _ (ReachesNN.refl _) 3
    (by norm_num)
  refine ⟨h.1.trans ?_, h.2⟩
  rw [update_timer]
  norm_num

/-- C3: play(name) is a no-op when name is absent from the catalog or
equals the active animation's name, and otherwise replaces the playback
state wholesale with one freshly derived from the target definition
(timer 0, current_frame 0, source, interval and looping from the
definition). The hypothesis hwf is the catalog invariant maintained by
every construction path: a definition is always keyed by its own name. -/
theorem C3_play_switching (sp : AnimatedSprite) (name : String)
    (hwf : ∀ a, hmGet sp.animations name = some a → a.name = name) :
    (hmGet sp.animations name = none → sp.play name = sp) ∧
    (name = sp.state.animation_name → sp.play name = sp) ∧
    (∀ a, hmGet sp.animations name = some a →
      name ≠ sp.state.animation_name →
      sp.play name = { sp with state := a.to_state } ∧
      (sp.play name).animations = sp.animations ∧
      (sp.play name).state.timer = 0 ∧
      (sp.play name).state.current_frame = 0 ∧
      (sp.play name).state.source = a.source ∧
      (sp.play name).state.interval = a.frame_time ∧
      (sp.play name).state.looping = a.looping) := by
  refine ⟨?_, ?_, ?_⟩
  · intro h
    simp only [AnimatedSprite.play, h]
  · intro h
    cases hg : hmGet sp.animations name with
    | none => simp only [AnimatedSprite.play, hg]
    | some a =>
        have hname : a.name = name := hwf a hg
        simp only [AnimatedSprite.play, hg, hname, ← h, ne_eq,
          not_true_eq_false, if_false]
  · intro a hg hne
    have hname : a.name = name := hwf a hg
    have hplay : sp.play name = { sp with state := a.to_state } := by
      simp only [AnimatedSprite.play, hg, hname, ne_eq, hne,
        not_false_eq_true, if_true]
    exact ⟨hplay, by rw [hplay], by rw [hplay]; rfl, by rw [hplay]; rfl,
      by rw [hplay]; rfl, by rw [hplay]; rfl, by rw [hplay]; rfl⟩

/-- Witness for C3: on a sprite whose catalog holds walk and idle with
walk active, play of an unknown name and play of the active name are
no-ops, and play of idle swaps in the freshly derived idle state. -/
theorem C3_play_switching_witness :
    ((⟨[("walk", ⟨"walk", .Files "w" 2, true, 1⟩),
        ("idle", ⟨"idle", .Files "i" 3, true, 2⟩)],
       (⟨"walk", .Files "w" 2, true, 1⟩ : Animation).to_state⟩ :
        AnimatedSprite).play "run" =
      ⟨[("walk", ⟨"walk", .Files "w" 2, true, 1⟩),
        ("idle", ⟨"idle", .Files "i" 3, true, 2⟩)],
       (⟨"walk", .Files "w" 2, true, 1⟩ : Animation).to_state⟩) ∧
    ((⟨[("walk", ⟨"walk", .Files "w" 2, true, 1⟩),
        ("idle", ⟨"idle", .Files "i" 3, true, 2⟩)],
       (⟨"walk", .Files "w" 2, true, 1⟩ : Animation).to_state⟩ :
        AnimatedSprite).play "walk" =
      ⟨[("walk", ⟨"walk", .Files "w" 2, true, 1⟩),
        ("idle", ⟨"idle", .Files "i" 3, true, 2⟩)],
       (⟨"walk", .Files "w" 2, true, 1⟩ : Animation).to_state⟩) ∧
    ((⟨[("walk", ⟨"walk", .Files "w" 2, true, 1⟩),
        ("idle", ⟨"idle", .Files "i" 3, true, 2⟩)],
       (⟨"walk", .Files "w" 2, true, 1⟩ : Animation).to_state⟩ :
        AnimatedSprite).play "idle" =
      ⟨[("walk", ⟨"walk", .Files "w" 2, true, 1⟩),
        ("idle", ⟨"idle", .Files "i" 3, true, 2⟩)],
       (⟨"idle", .Files "i" 3, true, 2⟩ : Animation).to_state⟩) := by
  refine ⟨?_, ?_, ?_⟩
  · exact (C3_play_switching _ "run"
      (by intro a h; simp [hmGet] at h)).1 (by decide)
  · exact (C3_play_switching _ "walk"
      (by intro a h; simp [hmGet] at h; rw [← h])).2.1 rfl
  · exact ((C3_play_switching _ "idle"
      (by intro a h; simp [hmGet] at h; rw [← h])).2.2 _ (by decide)
      (by decide)).1

/-- C7: the two interval conventions: Animation::to_state (used by the
builder's add_animation path) sets interval to frame_time, seconds per
frame, while AnimationState::new divides its total time argument by the
frame count. -/
theorem C7_interval_conventions :
    (∀ a : Animation, a.to_state.interval = a.frame_time) ∧
    (∀ (b : AnimatedSpriteBuilder) (name : String) (ft : ℚ) (looping : Bool)
        (source : AnimationSource), b.state = none →
      (b.add_animation name ft looping source).state =
        some (Animation.mk name source looping ft).to_state ∧
      ((b.add_animation name ft looping source).state.map
        AnimationState.interval) = some ft) ∧
    (∀ (nm : String) (source : AnimationSource) (t : ℚ) (looping : Bool),
      (AnimationState.new nm source t looping).interval =
        t / (source.frames : ℚ)) := by
  refine ⟨fun a => rfl, ?_, fun nm source t looping => rfl⟩
  intro b name ft looping source h
  constructor
  · simp only [AnimatedSpriteBuilder.add_animation, h, if_pos]
  · simp only [AnimatedSpriteBuilder.add_animation, h, if_pos,
      Option.map_some]
    rfl

/-- Witness for C7: on a fresh builder, add_animation with frame_time 1/4
stores a state whose interval is 1/4, and AnimationState::new with total
time 1 over 4 frames stores interval 1/4. -/
theorem C7_interval_conventions_witness :
    ((AnimatedSpriteBuilder.new.add_animation "a" (1/4) true
        (.Files "f" 4)).state.map AnimationState.interval = some (1/4)) ∧
    ((AnimationState.new "a" (.Files "f" 4) 1 true).interval =
      1 / ((4 : ℤ) : ℚ)) := by
  refine ⟨(C7_interval_conventions.2.1 AnimatedSpriteBuilder.new "a" (1/4)
    true (.Files "f" 4) rfl).2, ?_⟩
  exact C7_interval_conventions.2.2 "a" (.Files "f" 4) 1 true

/-- C8: progress is the timer over interval times frame count, with no
clamping: whenever the timer is 1.5 times the clip length N * I (with N
and I nonzero) progress returns exactly 3/2, not 1. -/
theorem C8_progress_unclamped :
    (∀ s : AnimationState,
      s.progress = s.timer / (s.interval * (s.source.frames : ℚ))) ∧
    (∀ (s : AnimationState) (N : ℤ) (I : ℚ), s.source.frames = N →
      s.interval = I → I ≠ 0 → (N : ℚ) ≠ 0 →
      s.timer = 3/2 * ((N : ℚ) * I) → s.progress = 3/2) := by
  refine ⟨fun s => rfl, ?_⟩
  intro s N I hfr hint hI hN htm
  rw [AnimationState.progress, htm, hint, hfr]
  field_simp
  ring

/-- Witness for C8: a 2-frame clip with interval 1 and timer 3 reports
progress 3/2. -/
theorem C8_progress_unclamped_witness :
    (⟨"a", .Files "f" 2, 1, false, 3, 1⟩ : AnimationState).progress = 3/2 :=
  C8_progress_unclamped.2 ⟨"a", .Files "f" 2, 1, false, 3, 1⟩ 2 1 rfl rfl
    (by norm_num) (by norm_num) (by norm_num)

/-- C5: current_rect on a Files source is the prefix concatenated with
the decimal frame index and no rectangle, on an Atlas source it is the
texture name with rectangle origin offset + step * frame and the stored
cell size, independent of the texture size provider; at offset (0,0),
step (16,0), cell size (16,16) and frame 3 the origin is (48,0) with
size (16,16). -/
theorem C5_files_atlas_rect :
    (∀ (s : AnimationState) (p : String) (n : ℤ), s.source = .Files p n →
      ∀ image_size, s.current_rect image_size =
        (p ++ toString s.current_frame, none)) ∧
    (∀ (s : AnimationState) (nm : String) (off st sz : ℤ × ℤ) (n : ℤ),
      s.source = .Atlas nm off st sz n →
      ∀ image_size, s.current_rect image_size =
        (nm, some ⟨(off.1 + st.1 * s.current_frame,
                    off.2 + st.2 * s.current_frame), sz⟩)) ∧
    (∀ (s : AnimationState) (nm : String),
      s.source = .Atlas nm (0, 0) (16, 0) (16, 16) 4 → s.current_frame = 3 →
      ∀ image_size, s.current_rect image_size =
        (nm, some ⟨(48, 0), (16, 16)⟩)) := by
  refine ⟨?_, ?_, ?_⟩
  · intro s p n h image_size
    simp only [AnimationState.current_rect, h]
  · intro s nm off st sz n h image_size
    simp only [AnimationState.current_rect, h]
  · intro s nm h hfr image_size
    simp only [AnimationState.current_rect, h, hfr]
    norm_num

/-- Witness for C5: a Files source with prefix run at frame 7 resolves to
the texture run7 with no rectangle, and the Atlas instance from the spec
resolves to origin (48,0) with size (16,16). -/
theorem C5_files_atlas_rect_witness :
    ((⟨"a", .Files "run" 4, 1, true, 0, 7⟩ :
        AnimationState).current_rect (fun _ => .NotFound) = ("run7", none)) ∧
    ((⟨"a", .Atlas "at" (0, 0) (16, 0) (16, 16) 4, 1, true, 0, 3⟩ :
        AnimationState).current_rect (fun _ => .NotFound) =
      ("at", some ⟨(48, 0), (16, 16)⟩)) := by
  constructor
  · exact (C5_files_atlas_rect.1 _ "run" 4 rfl _).trans (by decide)
  · exact C5_files_atlas_rect.2.2 _ "at" rfl rfl _

/-- Texture size as seen by the resolver: the loaded size when available,
otherwise the 64 by 64 fallback the code substitutes before dividing. -/
def fallbackSize (r : ImageSizeResult) : ℤ × ℤ :=
  match r with
  | .Loaded sz => ((sz.1 : ℤ), (sz.2 : ℤ))
  | .LoadingInProgress => (64, 64)
  | .NotFound => (64, 64)

/-- C4: current_rect on a Spritesheet source always returns the texture
name and some rectangle (it is total, never an error): the cell size is
the componentwise floor of the reported texture size over (columns, rows),
where the reported size is the loaded one when available and the
substituted 64 by 64 fallback when the provider reports LoadingInProgress
or NotFound; the row is frame / columns, the column frame mod columns,
the origin (column, row) times the cell size and the size the cell size. -/
theorem C4_spritesheet_rect (s : AnimationState) (nm : String)
    (sheet : Spritesheet) (hs : s.source = .Spritesheet nm sheet)
    (hi : 0 ≤ s.current_frame) (image_size : String → ImageSizeResult) :
    s.current_rect image_size =
      (nm, some ⟨((s.current_frame % (sheet.columns : ℤ)) *
                    ((fallbackSize (image_size nm)).1 / (sheet.columns : ℤ)),
                  (s.current_frame / (sheet.columns : ℤ)) *
                    ((fallbackSize (image_size nm)).2 / (sheet.rows : ℤ))),
                 ((fallbackSize (image_size nm)).1 / (sheet.columns : ℤ),
                  (fallbackSize (image_size nm)).2 / (sheet.rows : ℤ))⟩) := by
  have hc0 : (0 : ℤ) ≤ (sheet.columns : ℤ) := Int.natCast_nonneg _
  have hr0 : (0 : ℤ) ≤ (sheet.rows : ℤ) := Int.natCast_nonneg _
  cases himg : image_size nm with
  | Loaded sz =>
      obtain ⟨w, h⟩ := sz
      simp only [AnimationState.current_rect, hs, himg, fallbackSize]
      rw [tdiv_eq_ediv_of_nonneg (Int.natCast_nonneg w) hc0,
        tdiv_eq_ediv_of_nonneg (Int.natCast_nonneg h) hr0,
        tdiv_eq_ediv_of_nonneg hi hc0, tmod_eq_emod_of_nonneg hi hc0]
  | LoadingInProgress =>
      simp only [AnimationState.current_rect, hs, himg, fallbackSize]
      rw [tdiv_eq_ediv_of_nonneg (by norm_num) hc0,
        tdiv_eq_ediv_of_nonneg (by norm_num) hr0,
        tdiv_eq_ediv_of_nonneg hi hc0, tmod_eq_emod_of_nonneg hi hc0]
  | NotFound =>
      simp only [AnimationState.current_rect, hs, himg, fallbackSize]
      rw [tdiv_eq_ediv_of_nonneg (by norm_num) hc0,
        tdiv_eq_ediv_of_nonneg (by norm_num) hr0,
        tdiv_eq_ediv_of_nonneg hi hc0, tmod_eq_emod_of_nonneg hi hc0]

/-- Witness for C4: with 4 rows, 2 columns, a loaded 128 by 256 texture
and frame 5 the rectangle is origin (64,128) with cell (64,64); with the
size still loading the fallback gives cell (32,16) and origin (32,32). -/
theorem C4_spritesheet_rect_witness :
    ((⟨"a", .Spritesheet "tex" ⟨4, 2⟩, 1, true, 0, 5⟩ :
        AnimationState).current_rect (fun _ => .Loaded (128, 256)) =
      ("tex", some ⟨(64, 128), (64, 64)⟩)) ∧
    ((⟨"a", .Spritesheet "tex" ⟨4, 2⟩, 1, true, 0, 5⟩ :
        AnimationState).current_rect (fun _ => .LoadingInProgress) =
      ("tex", some ⟨(32, 32), (32, 16)⟩)) := by
  constructor
  · exact (C4_spritesheet_rect _ "tex" ⟨4, 2⟩ rfl (by decide) _).trans
      (by decide)
  · exact (C4_spritesheet_rect _ "tex" ⟨4, 2⟩ rfl (by decide) _).trans
      (by decide)

/-! Catalog lemmas: lookup after insertion and after a left fold of
insertions (the last insertion for a key wins, i.e. lookup agrees with
find? on the reversed insertion order). -/

lemma find?_filter_ne (k k2 : String) (h : k ≠ k2) (m2 : Catalog) :
    (m2.filter (fun p => p.1 != k)).find? (fun p => p.1 == k2) =
      m2.find? (fun p => p.1 == k2) := by
  induction m2 with
  | nil => rfl
  | cons a m2 ih =>
      by_cases hak : a.1 = k
      · rw [List.filter_cons_of_neg (by simp [hak]),
          List.find?_cons_of_neg _ (by simp [hak]; exact h), ih]
      · rw [List.filter_cons_of_pos (by simp [hak])]
        by_cases ha2 : a.1 = k2
        · rw [List.find?_cons_of_pos _ (by simp [ha2]),
            List.find?_cons_of_pos _ (by simp [ha2])]
        · rw [List.find?_cons_of_neg _ (by simp [ha2]),
            List.find?_cons_of_neg _ (by simp [ha2]), ih]

lemma hmGet_hmInsert (m : Catalog) (k : String) (v : Animation)
    (k2 : String) :
    hmGet (hmInsert m k v) k2 = if k = k2 then some v else hmGet m k2 := by
  by_cases h : k = k2
  · subst h
    simp [hmGet, hmInsert, List.find?]
  · rw [if_neg h]
    unfold hmGet hmInsert
    rw [List.find?_cons_of_neg _ (by simp [h]), find?_filter_ne k k2 h]

lemma hmGet_foldl_insert (l : List Animation) (m : Catalog) (n : String) :
    hmGet (l.foldl (fun m2 a => hmInsert m2 a.name a) m) n =
      (l.reverse.find? (fun a => a.name == n)).or (hmGet m n) := by
  induction l generalizing m with
  | nil => simp [Option.none_or]
  | cons a l ih =>
      rw [List.foldl_cons, ih, List.reverse_cons, List.find?_append,
        Option.or_assoc]
      congr 1
      rw [hmGet_hmInsert]
      by_cases h : a.name = n
      · simp [List.find?, h]
      · have hb : (a.name == n) = false := beq_eq_false_iff_ne.mpr h
        simp [List.find?, h, hb, Option.none_or]

/-- C9: set_animations always hard-resets the active state to the first
supplied definition's initial state and replaces the catalog with exactly
the listed definitions keyed by name (lookup returns the last listed
definition bearing the name); an empty list passed to set_animations, or
to the builder's with_animations, is the modelled panic (none). -/
theorem C9_set_animations_reset (sp : AnimatedSprite) :
    (sp.set_animations [] = none) ∧
    (∀ b : AnimatedSpriteBuilder, b.state = none →
      b.with_animations [] = none) ∧
    (∀ (a : Animation) (l : List Animation), ∃ sp2,
      sp.set_animations (a :: l) = some sp2 ∧
      sp2.state = a.to_state ∧
      sp2.state.timer = 0 ∧ sp2.state.current_frame = 0 ∧
      ∀ n, hmGet sp2.animations n =
        (a :: l).reverse.find? (fun x => x.name == n)) := by
  refine ⟨rfl, ?_, ?_⟩
  · intro b h
    simp [AnimatedSpriteBuilder.with_animations, h]
  · intro a l
    refine ⟨_, rfl, rfl, rfl, rfl, ?_⟩
    intro n
    show hmGet ((a :: l).foldl (fun m2 x => hmInsert m2 x.name x) []) n = _
    rw [hmGet_foldl_insert]
    exact Option.or_none

/-- Witness for C9: replacing the catalog of a sprite that is playing
walk with the list [idle, wave] resets the state to idle's initial state
and the new catalog resolves wave; the empty list is the modelled panic
for both set_animations and a fresh with_animations. -/
theorem C9_set_animations_reset_witness :
    ((⟨[("walk", ⟨"walk", .Files "w" 2, true, 1⟩)],
       (⟨"walk", .Files "w" 2, true, 1⟩ : Animation).to_state⟩ :
        AnimatedSprite).set_animations [] = none) ∧
    (AnimatedSpriteBuilder.new.with_animations [] = none) ∧
    (∃ sp2, (⟨[("walk", ⟨"walk", .Files "w" 2, true, 1⟩)],
       (⟨"walk", .Files "w" 2, true, 1⟩ : Animation).to_state⟩ :
        AnimatedSprite).set_animations
          [⟨"idle", .Files "i" 3, true, 2⟩,
           ⟨"wave", .Files "v" 4, false, 3⟩] = some sp2 ∧
      sp2.state = (⟨"idle", .Files "i" 3, true, 2⟩ : Animation).to_state ∧
      hmGet sp2.animations "wave" =
        some ⟨"wave", .Files "v" 4, false, 3⟩) := by
  obtain ⟨sp2, h1, h2, _, _, h5⟩ :=
    (C9_set_animations_reset
      ⟨[("walk", ⟨"walk", .Files "w" 2, true, 1⟩)],
       (⟨"walk", .Files "w" 2, true, 1⟩ : Animation).to_state⟩).2.2
      ⟨"idle", .Files "i" 3, true, 2⟩ [⟨"wave", .Files "v" 4, false, 3⟩]
  exact ⟨(C9_set_animations_reset
      ⟨[("walk", ⟨"walk", .Files "w" 2, true, 1⟩)],
       (⟨"walk", .Files "w" 2, true, 1⟩ : Animation).to_state⟩).1,
    (C9_set_animations_reset
      ⟨[("walk", ⟨"walk", .Files "w" 2, true, 1⟩)],
       (⟨"walk", .Files "w" 2, true, 1⟩ : Animation).to_state⟩).2.1
      AnimatedSpriteBuilder.new rfl,
    sp2, h1, h2, (h5 "wave").trans (by decide)⟩

/-- C10: with_animations is only usable on a fresh builder: it is the
modelled panic (none) whenever the builder's initial state is already
set, which is the case after add_anim, add_animation, or a successful
prior with_animations; on a fresh builder with a nonempty list it
succeeds, sets the initial state from the first element, and inserts
every definition keyed by its name. -/
theorem C10_with_animations_fresh_only :
    (∀ (b : AnimatedSpriteBuilder) (l : List Animation),
      b.state.isSome → b.with_animations l = none) ∧
    (∀ (b : AnimatedSpriteBuilder) (a : Animation),
      ((b.add_anim a).state).isSome) ∧
    (∀ (b : AnimatedSpriteBuilder) (name : String) (ft : ℚ) (lp : Bool)
        (src : AnimationSource),
      ((b.add_animation name ft lp src).state).isSome) ∧
    (∀ (b b2 : AnimatedSpriteBuilder) (l : List Animation),
      b.with_animations l = some b2 → b2.state.isSome) ∧
    (∀ (b : AnimatedSpriteBuilder) (a : Animation) (l : List Animation),
      b.state = none → b.animations = [] → ∃ b2,
        b.with_animations (a :: l) = some b2 ∧
        b2.state = some a.to_state ∧
        ∀ n, hmGet b2.animations n =
          (a :: l).reverse.find? (fun x => x.name == n)) := by
  refine ⟨?_, ?_, ?_, ?_, ?_⟩
  · intro b l h
    simp [AnimatedSpriteBuilder.with_animations, h]
  · intro b a
    cases hb : b.state with
    | none => simp [AnimatedSpriteBuilder.add_anim, hb]
    | some st => simp [AnimatedSpriteBuilder.add_anim, hb]
  · intro b name ft lp src
    cases hb : b.state with
    | none => simp [AnimatedSpriteBuilder.add_animation, hb]
    | some st => simp [AnimatedSpriteBuilder.add_animation, hb]
  · intro b b2 l h
    cases hb : b.state with
    | some st => simp [AnimatedSpriteBuilder.with_animations, hb] at h
    | none =>
        cases l with
        | nil => simp [AnimatedSpriteBuilder.with_animations, hb] at h
        | cons a l =>
            simp [AnimatedSpriteBuilder.with_animations, hb] at h
            rw [← h]
            rfl
  · intro b a l h hanim
    have hw : b.with_animations (a :: l) = some
        { b with state := some a.to_state
                 animations := (a :: l).foldl
                   (fun m2 x => hmInsert m2 x.name x) b.animations } := by
      simp [AnimatedSpriteBuilder.with_animations, h]
    refine ⟨_, hw, rfl, ?_⟩
    intro n
    show hmGet ((a :: l).foldl (fun m2 x => hmInsert m2 x.name x)
      b.animations) n = _
    rw [hmGet_foldl_insert, hanim]
    exact Option.or_none

/-- Witness for C10: a fresh builder accepts with_animations of a
one-element list and records its state; after add_anim, a second
with_animations is the modelled panic. -/
theorem C10_with_animations_fresh_only_witness :
    (∃ b2, AnimatedSpriteBuilder.new.with_animations
        [⟨"walk", .Files "w" 2, true, 1⟩] = some b2 ∧
      b2.state = some (⟨"walk", .Files "w" 2, true, 1⟩ :
        Animation).to_state ∧
      hmGet b2.animations "walk" =
        some ⟨"walk", .Files "w" 2, true, 1⟩) ∧
    ((AnimatedSpriteBuilder.new.add_anim
        ⟨"walk", .Files "w" 2, true, 1⟩).with_animations
        [⟨"idle", .Files "i" 3, true, 2⟩] = none) := by
  obtain ⟨b2, h1, h2, h3⟩ := C10_with_animations_fresh_only.2.2.2.2
    AnimatedSpriteBuilder.new ⟨"walk", .Files "w" 2, true, 1⟩ [] rfl rfl
  refine ⟨⟨b2, h1, h2, (h3 "walk").trans (by decide)⟩, ?_⟩
  exact C10_with_animations_fresh_only.1 _ _
    (C10_with_animations_fresh_only.2.1 AnimatedSpriteBuilder.new
      ⟨"walk", .Files "w" 2, true, 1⟩)

/-- Well-formedness of an author-supplied frame source: Files and Atlas
carry a count of at least 1, a Spritesheet has at least one row and one
column. -/
def sourceWF : AnimationSource → Prop
  | .Files _ frames => 1 ≤ frames
  | .Atlas _ _ _ _ frames => 1 ≤ frames
  | .Spritesheet _ spritesheet =>
      1 ≤ spritesheet.rows ∧ 1 ≤ spritesheet.columns

/-- Counterexample for C6: the builder accepts a Files source whose
author-supplied frame count is 0 without any validation, and the built
sprite's active source reports frames() = 0, violating the claimed
invariant frames() >= 1. -/
theorem C6_frames_validated_counterexample :
    ∃ sp : AnimatedSprite,
      (AnimatedSpriteBuilder.new.add_animation "a" 1 false
        (.Files "f" 0)).build = some sp ∧
      sp.state.source.frames < 1 :=
  ⟨_, rfl, by decide⟩

/-- C6 amended: construction performs no validation (add_animation stores
any supplied definition unchanged, frame count 0 included); frames() is
at least 1 exactly for well-formed sources: whenever the author-supplied
Files or Atlas count is at least 1, and automatically for a Spritesheet
with at least one row and one column. -/
theorem C6_frames_invariant_amended :
    (∀ src : AnimationSource, sourceWF src → 1 ≤ src.frames) ∧
    (∀ (nm : String) (sheet : Spritesheet), 1 ≤ sheet.rows →
      1 ≤ sheet.columns →
      1 ≤ (AnimationSource.Spritesheet nm sheet).frames) ∧
    (∀ (b : AnimatedSpriteBuilder) (name : String) (ft : ℚ) (lp : Bool)
        (src : AnimationSource),
      hmGet (b.add_animation name ft lp src).animations name =
        some ⟨name, src, lp, ft⟩) := by
  have hsheet : ∀ (nm : String) (sheet : Spritesheet), 1 ≤ sheet.rows →
      1 ≤ sheet.columns →
      1 ≤ (AnimationSource.Spritesheet nm sheet).frames := by
    intro nm sheet hr hc
    have h1 : 1 * 1 ≤ sheet.rows * sheet.columns := Nat.mul_le_mul hr hc
    simp only [AnimationSource.frames]
    exact_mod_cast Nat.one_mul 1 ▸ h1
  refine ⟨?_, hsheet, ?_⟩
  · intro src hwf
    cases src with
    | Files p n => exact hwf
    | Atlas nm o st sz n => exact hwf
    | Spritesheet nm sheet => exact hsheet nm sheet hwf.1 hwf.2
  · intro b name ft lp src
    show hmGet (hmInsert _ name _) name = _
    rw [hmGet_hmInsert, if_pos rfl]

/-- Witness for C6 amended: a well-formed Files source with 3 frames
reports frames at least 1, a 2 by 4 spritesheet reports at least 1, and
add_animation on a fresh builder stores the supplied definition
unchanged. -/
theorem C6_frames_invariant_amended_witness :
    (1 ≤ (AnimationSource.Files "f" 3).frames) ∧
    (1 ≤ (AnimationSource.Spritesheet "s" ⟨2, 4⟩).frames) ∧
    (hmGet (AnimatedSpriteBuilder.new.add_animation "a" 1 false
        (.Files "f" 3)).animations "a" =
      some ⟨"a", .Files "f" 3, false, 1⟩) :=
  ⟨C6_frames_invariant_amended.1 (.Files "f" 3)
     (show (1 : ℤ) ≤ 3 by decide),
   C6_frames_invariant_amended.2.1 "s" ⟨2, 4⟩ (by decide) (by decide),
   C6_frames_invariant_amended.2.2 AnimatedSpriteBuilder.new "a" 1 false
     (.Files "f" 3)⟩
